import Mathlib

/-!
# Verification of the MongoDB index-migration tool's core engine

This file gives a shallow embedding, in Lean 4, of the decision logic of
`mongodb-index-migration-enhanced.js`:

* `JsonVal` / `Doc` model JavaScript JSON values and objects (an object is an
  ordered list of key/value fields, mirroring insertion order, which is the
  order `JSON.stringify` serializes and hence the order the code's
  equivalence comparison observes).
* `areIndexesEquivalent` embeds the function of the same name
  (source lines 346-372).
* `comparePlan` embeds the planning loop of `compareIndexes`
  (source lines 392-436).
* `createIndex` embeds the per-index applier (source lines 107-137), with
  the database's reaction to the issued create call supplied as an
  `Except MongoError Unit` valued oracle.
* `getIndexes` embeds the tolerant inventory reader (source lines 94-104).
* `createIndexOptionsAlloc` embeds the object-aliasing behaviour of the
  options construction (`{...indexSpec}` followed by three `delete`s,
  source lines 117-124) over an explicit heap of objects, to state the
  frame property that the input descriptor object is not mutated.

Modelling conventions: JavaScript `JSON.stringify` is injective on the
values representable by `JsonVal` (standard escaping), so the code's
`JSON.stringify(x) !== JSON.stringify(y)` comparisons are embedded as
structural disequality of `JsonVal`s, with JavaScript `undefined`
(an absent property) embedded as `Option.none` — `JSON.stringify` of
`undefined` is `undefined`, so two absent properties also compare equal
under the code's test.  Strict `!==` on the primitive option values the
comparator reads (`unique`, `sparse`, `expireAfterSeconds`) is value
disequality with `undefined` distinct from every value.  Numeric leaves
are embedded as `Int`; the descriptors at issue carry integer direction
markers and TTL counts, and only equality of such values is ever used.
-/

/-- A JSON value as manipulated by the JavaScript code.  An object keeps its
fields as an ordered association list, reflecting JavaScript property
insertion order. -/
inductive JsonVal where
  | num (n : Int)
  | str (s : String)
  | bool (b : Bool)
  | null
  | obj (fields : List (String × JsonVal))
  | arr (elems : List JsonVal)

namespace JsonVal

/-- Structural (value) equality of JSON values, the relation computed by
comparing `JSON.stringify` outputs in the JavaScript source. -/
def beq : JsonVal → JsonVal → Bool
  | .num a, .num b => a == b
  | .str a, .str b => a == b
  | .bool a, .bool b => a == b
  | .null, .null => true
  | .obj a, .obj b => beqFields a b
  | .arr a, .arr b => beqList a b
  | _, _ => false
where
  beqFields : List (String × JsonVal) → List (String × JsonVal) → Bool
    | [], [] => true
    | (k1, v1) :: t1, (k2, v2) :: t2 => k1 == k2 && beq v1 v2 && beqFields t1 t2
    | _, _ => false
  beqList : List JsonVal → List JsonVal → Bool
    | [], [] => true
    | v1 :: t1, v2 :: t2 => beq v1 v2 && beqList t1 t2
    | _, _ => false

theorem beq_iff_eq_val (a b : JsonVal) : beq a b = true ↔ a = b := by
  refine JsonVal.beq.induct
    (fun l1 l2 => beq.beqFields l1 l2 = true ↔ l1 = l2)
    (fun x y => beq x y = true ↔ x = y)
    (fun l1 l2 => beq.beqList l1 l2 = true ↔ l1 = l2)
    ?_ ?_ ?_ ?_ ?_ ?_ ?_ ?_ ?_ ?_ ?_ ?_ ?_ a b
  · intro a b; simp [beq]
  · intro a b; simp [beq]
  · intro a b; simp [beq]
  · simp [beq]
  · intro a b ih; simp [beq, ih]
  · intro a b ih; simp [beq, ih]
  · intro t x h1 h2 h3 h4 h5 h6
    cases t <;> cases x <;> simp_all [beq]
  · simp [beq.beqFields]
  · intro k1 v1 t1 k2 v2 t2 ih2 ih1
    simp [beq.beqFields, ih2, ih1, and_assoc]
  · intro t x h1 h2
    cases t with
    | nil =>
      cases x with
      | nil => exact (h1 rfl rfl).elim
      | cons hd tl => obtain ⟨k, v⟩ := hd; simp [beq.beqFields]
    | cons hd tl =>
      cases x with
      | nil => obtain ⟨k, v⟩ := hd; simp [beq.beqFields]
      | cons hd2 tl2 =>
        obtain ⟨k, v⟩ := hd; obtain ⟨k2, v2⟩ := hd2
        exact (h2 k v tl k2 v2 tl2 rfl rfl).elim
  · simp [beq.beqList]
  · intro v1 t1 v2 t2 ih2 ih1
    simp [beq.beqList, ih2, ih1]
  · intro t x h1 h2
    cases t with
    | nil =>
      cases x with
      | nil => exact (h1 rfl rfl).elim
      | cons hd tl => simp [beq.beqList]
    | cons hd tl =>
      cases x with
      | nil => simp [beq.beqList]
      | cons hd2 tl2 => exact (h2 hd tl hd2 tl2 rfl rfl).elim

instance : DecidableEq JsonVal :=
  fun a b => decidable_of_iff (beq a b = true) (beq_iff_eq_val a b)

end JsonVal

/-- A JavaScript object (e.g. an index descriptor as returned by the MongoDB
driver): an ordered association list of properties. -/
abbrev Doc := List (String × JsonVal)

/-- Property access `d.k` on a JavaScript object: the value of the first
field named `k`, or `none` for `undefined` when the property is absent. -/
def getField (d : Doc) (k : String) : Option JsonVal :=
  (d.find? (fun p => p.1 = k)).map (·.2)

/-- `Object.values` of a descriptor's `key` property as used by the text-index
test in `areIndexesEquivalent` (source line 359).  A present object yields its
field values in order; an absent or non-object key yields no values (in
JavaScript, `Object.values` of a primitive never contains the four-character
string `"text"`, and a falsy `key` short-circuits the test). -/
def keyValues : Option JsonVal → List JsonVal
  | some (JsonVal.obj fields) => fields.map (·.2)
  | _ => []

/-- JavaScript falsiness of a JSON value, as consulted by the `|| {}`
defaulting in the source (lines 360 and 366). -/
def isFalsy : JsonVal → Bool
  | JsonVal.null => true
  | JsonVal.bool b => !b
  | JsonVal.num n => n == 0
  | JsonVal.str s => s == ""
  | _ => false

/-- `x || {}`: the value itself unless absent or falsy, in which case the
empty object. -/
def orEmptyObj : Option JsonVal → JsonVal
  | none => JsonVal.obj []
  | some v => if isFalsy v then JsonVal.obj [] else v

/-- Embedding of `areIndexesEquivalent(indexA, indexB)` (source lines
346-372).  `JSON.stringify` comparisons become structural equality (see the
header comment), strict `!==` on option fields becomes `Option JsonVal`
disequality, and the guarded weights check mirrors
`indexA.key && Object.values(indexA.key).includes('text')`. -/
def areIndexesEquivalent (indexA indexB : Doc) : Bool :=
  if getField indexA "key" ≠ getField indexB "key" then false
  else if getField indexA "unique" ≠ getField indexB "unique" then false
  else if getField indexA "sparse" ≠ getField indexB "sparse" then false
  else if getField indexA "expireAfterSeconds" ≠ getField indexB "expireAfterSeconds" then false
  else if JsonVal.str "text" ∈ keyValues (getField indexA "key") ∧
      orEmptyObj (getField indexA "weights") ≠ orEmptyObj (getField indexB "weights") then false
  else if orEmptyObj (getField indexA "partialFilterExpression") ≠
      orEmptyObj (getField indexB "partialFilterExpression") then false
  else true

theorem areIndexesEquivalent_iff (a b : Doc) : areIndexesEquivalent a b = true ↔
    (getField a "key" = getField b "key" ∧
     getField a "unique" = getField b "unique" ∧
     getField a "sparse" = getField b "sparse" ∧
     getField a "expireAfterSeconds" = getField b "expireAfterSeconds" ∧
     (JsonVal.str "text" ∈ keyValues (getField a "key") →
       orEmptyObj (getField a "weights") = orEmptyObj (getField b "weights")) ∧
     orEmptyObj (getField a "partialFilterExpression") =
       orEmptyObj (getField b "partialFilterExpression")) := by
  unfold areIndexesEquivalent
  split_ifs with h1 h2 h3 h4 h5 h6 <;> simp <;> tauto

/-- `index.name !== '_id_'` is false exactly when the descriptor's `name`
property is the string `_id_` (an absent `name` is `undefined`, which the
strict comparison distinguishes from `'_id_'`). -/
def isIdIndex (d : Doc) : Bool :=
  decide (getField d "name" = some (JsonVal.str "_id_"))

/-- One entry of the `missingIndexes` result object of `compareIndexes`:
the `collectionMissing` flag and the list of descriptors to create. -/
structure PlanEntry where
  collectionMissing : Bool
  indexes : List Doc
deriving DecidableEq

/-- Embedding of the planning loop of `compareIndexes` (source lines
392-436).  The per-collection inventories are supplied as functions from
collection name to descriptor list (the code fetches them with `getIndexes`
inside the loop); the loop over `sourceCollections` builds the
`missingIndexes` object in iteration order. -/
def comparePlan (sourceCollections targetCollections : List String)
    (sourceIndexesOf targetIndexesOf : String → List Doc) :
    List (String × PlanEntry) :=
  match sourceCollections with
  | [] => []
  | collectionName :: rest =>
    let sourceIndexes := sourceIndexesOf collectionName
    if collectionName ∉ targetCollections then
      (collectionName,
        ⟨true, sourceIndexes.filter (fun index => !(isIdIndex index))⟩) ::
        comparePlan rest targetCollections sourceIndexesOf targetIndexesOf
    else
      let missing := sourceIndexes.filter (fun sourceIndex =>
        !(isIdIndex sourceIndex) &&
        !((targetIndexesOf collectionName).any (fun targetIndex =>
            areIndexesEquivalent sourceIndex targetIndex)))
      if missing.length > 0 then
        (collectionName, ⟨false, missing⟩) ::
          comparePlan rest targetCollections sourceIndexesOf targetIndexesOf
      else
        comparePlan rest targetCollections sourceIndexesOf targetIndexesOf

/-- Reference entry for one source collection, written after the words of the
specification: first exclude every `_id_` descriptor, then either flag the
collection as missing on the target (taking all remaining source indexes), or
keep exactly the source indexes with no equivalent target index, dropping the
collection when that list is empty. -/
def specPlanEntry (targetCollections : List String)
    (targetIndexesOf : String → List Doc) (collectionName : String)
    (sourceIndexes : List Doc) : Option PlanEntry :=
  let nonId := sourceIndexes.filter (fun index => !(isIdIndex index))
  if collectionName ∉ targetCollections then
    some ⟨true, nonId⟩
  else
    let missing := nonId.filter (fun sourceIndex =>
      !((targetIndexesOf collectionName).any (fun targetIndex =>
          areIndexesEquivalent sourceIndex targetIndex)))
    if missing.isEmpty then none else some ⟨false, missing⟩

/-- Reference reconciliation plan, one `specPlanEntry` per source collection
in source enumeration order. -/
def referencePlan (sourceCollections targetCollections : List String)
    (sourceIndexesOf targetIndexesOf : String → List Doc) :
    List (String × PlanEntry) :=
  sourceCollections.filterMap (fun collectionName =>
    (specPlanEntry targetCollections targetIndexesOf collectionName
        (sourceIndexesOf collectionName)).map (fun entry => (collectionName, entry)))

/-- An error surfaced by the MongoDB driver: optional numeric `code` and a
`message` string. -/
structure MongoError where
  code : Option Int
  message : String
deriving DecidableEq

/-- The create call issued to the driver by `createIndex`: the `keys`
argument and the separate options bag. -/
structure CreateCall where
  keys : Option JsonVal
  options : Doc
deriving DecidableEq

/-- Outcome of one `createIndex` invocation (source lines 107-137).  The
function itself never throws: the `_id_` index is skipped before any driver
call, a duplicate-index error is logged as a warning, and any other error is
logged and swallowed so the caller's loop continues. -/
inductive IndexCreationOutcome where
  | skippedIdIndex
  | created (call : CreateCall)
  | alreadyExists (call : CreateCall)
  | failed (call : CreateCall) (cause : MongoError)
deriving DecidableEq

/-- The create call a non-`_id_` descriptor is issued with, if any. -/
def outcomeCall : IndexCreationOutcome → Option CreateCall
  | .skippedIdIndex => none
  | .created call => some call
  | .alreadyExists call => some call
  | .failed call _ => some call

/-- `delete options.k`: removes the property `k`, leaving the other fields in
place and in order. -/
def deleteField (k : String) (d : Doc) : Doc :=
  d.filter (fun p => !(p.1 = k : Bool))

/-- The options bag built by `createIndex` (source lines 117-124): a spread
copy of the descriptor with `key`, `v` and `ns` deleted, in that order. -/
def buildIndexOptions (indexSpec : Doc) : Doc :=
  deleteField "ns" (deleteField "v" (deleteField "key" indexSpec))

/-- Whether `pat` occurs as a contiguous run in `s`, checking every suffix. -/
def hasSubstringAux (pat : List Char) : List Char → Bool
  | [] => pat.isEmpty
  | c :: rest => List.isPrefixOf pat (c :: rest) || hasSubstringAux pat rest

/-- JavaScript `s.includes(pat)`: `pat` occurs as a contiguous substring. -/
def containsSubstring (s pat : String) : Bool :=
  hasSubstringAux pat.toList s.toList

/-- `error.code === 85 || error.message.includes('already exists')`
(source line 130). -/
def isDuplicateIndexError (e : MongoError) : Bool :=
  e.code == some 85 || containsSubstring e.message "already exists"

/-- Embedding of `createIndex(db, collectionName, indexSpec)` (source lines
107-137).  `db` is the driver's reaction to the issued
`collection.createIndex(keys, options)` call: success or a thrown
`MongoError`.  The embedding returns an outcome instead of raising; the
JavaScript function likewise returns normally on every path. -/
def createIndex (indexSpec : Doc) (db : CreateCall → Except MongoError Unit) :
    IndexCreationOutcome :=
  if getField indexSpec "name" = some (JsonVal.str "_id_") then
    .skippedIdIndex
  else
    let keys := getField indexSpec "key"
    let options := buildIndexOptions indexSpec
    let call : CreateCall := ⟨keys, options⟩
    match db call with
    | .ok _ => .created call
    | .error e =>
      if isDuplicateIndexError e then .alreadyExists call else .failed call e

/-- Embedding of `getIndexes(db, collectionName)` (source lines 94-104):
the driver's answer for the collection is either its descriptor list or a
thrown error, which the function catches, logging and returning `[]`. -/
def getIndexes (readResult : Except MongoError (List Doc)) : List Doc :=
  match readResult with
  | .ok indexes => indexes
  | .error _ => []

/-- Embedding of the per-collection creation loop of
`migrateCollectionIndexes` (source lines 140-163): read the source
collection's indexes (tolerantly) and attempt each one in order. -/
def migrateCollectionIndexes (readResult : Except MongoError (List Doc))
    (db : CreateCall → Except MongoError Unit) : List IndexCreationOutcome :=
  (getIndexes readResult).map (fun indexSpec => createIndex indexSpec db)

/-- Embedding of the `migrate` command's collection loop (source lines
565-571): every collection is processed in order, regardless of earlier
outcomes. -/
def migrateAllCollections (collections : List String)
    (reads : String → Except MongoError (List Doc))
    (db : CreateCall → Except MongoError Unit) :
    List (String × List IndexCreationOutcome) :=
  collections.map (fun collectionName =>
    (collectionName, migrateCollectionIndexes (reads collectionName) db))

/-- A heap of JavaScript objects; an object reference is an index into the
heap.  Used to state the aliasing/frame behaviour of the options
construction in `createIndex`. -/
abbrev ObjHeap := List Doc

/-- `delete h[r].k`: in-place removal of property `k` from the object at
reference `r`. -/
def heapDelete (h : ObjHeap) (r : Nat) (k : String) : ObjHeap :=
  h.set r (deleteField k (h.getD r []))

/-- Heap-level embedding of the options construction in `createIndex`
(source lines 117-124): `const options = { ...indexSpec }` allocates a fresh
shallow copy of the object at `specRef`, and the three `delete` statements
then mutate that fresh object only.  Returns the updated heap and the
reference of the options object. -/
def createIndexOptionsAlloc (h : ObjHeap) (specRef : Nat) : ObjHeap × Nat :=
  let optionsRef := h.length
  let h1 := h ++ [h.getD specRef []]
  let h2 := heapDelete h1 optionsRef "key"
  let h3 := heapDelete h2 optionsRef "v"
  let h4 := heapDelete h3 optionsRef "ns"
  (h4, optionsRef)

theorem referencePlan_cons (c : String) (rest targetCollections : List String)
    (sourceIndexesOf targetIndexesOf : String → List Doc) :
    referencePlan (c :: rest) targetCollections sourceIndexesOf targetIndexesOf =
      ((specPlanEntry targetCollections targetIndexesOf c
          (sourceIndexesOf c)).map (fun entry => (c, entry))).toList ++
        referencePlan rest targetCollections sourceIndexesOf targetIndexesOf := by
  rw [referencePlan, List.filterMap_cons, ← referencePlan]
  cases specPlanEntry targetCollections targetIndexesOf c (sourceIndexesOf c) <;> simp

/-- C1: for every source inventory, target collection-name list and target
inventory, the plan computed by the `compareIndexes` loop coincides with the
reference definition: a source collection absent from the target collection
names yields an entry flagged `collectionMissing` holding all its non-`_id_`
source indexes; a present collection contributes exactly the source indexes
with no equivalent target index, in source enumeration order, and is dropped
from the plan when that contribution is empty (so an empty plan signals the
two databases already in sync). -/
theorem comparePlan_eq_referencePlan
    (sourceCollections targetCollections : List String)
    (sourceIndexesOf targetIndexesOf : String → List Doc) :
    comparePlan sourceCollections targetCollections sourceIndexesOf targetIndexesOf =
      referencePlan sourceCollections targetCollections sourceIndexesOf targetIndexesOf := by
  induction sourceCollections with
  | nil => rfl
  | cons c rest ih =>
    have hfuse :
        ((sourceIndexesOf c).filter (fun index => !(isIdIndex index))).filter
            (fun sourceIndex =>
              !((targetIndexesOf c).any (fun targetIndex =>
                  areIndexesEquivalent sourceIndex targetIndex))) =
          (sourceIndexesOf c).filter (fun sourceIndex =>
            !(isIdIndex sourceIndex) &&
            !((targetIndexesOf c).any (fun targetIndex =>
                areIndexesEquivalent sourceIndex targetIndex))) := by
      rw [List.filter_filter]
      exact List.filter_congr (fun x _ => Bool.and_comm _ _)
    rw [referencePlan_cons]
    by_cases hc : c ∈ targetCollections
    · by_cases hm : (sourceIndexesOf c).filter (fun sourceIndex =>
          !(isIdIndex sourceIndex) &&
          !((targetIndexesOf c).any (fun targetIndex =>
              areIndexesEquivalent sourceIndex targetIndex))) = []
      · have hspec : specPlanEntry targetCollections targetIndexesOf c
            (sourceIndexesOf c) = none := by
          unfold specPlanEntry
          rw [if_neg (not_not_intro hc)]
          simp only [hfuse, hm, List.isEmpty_nil, if_pos]
        rw [hspec]
        simp only [Option.map_none', Option.toList_none, List.nil_append]
        simp only [comparePlan, if_neg (not_not_intro hc)]
        simp [hm, ih]
      · have hspec : specPlanEntry targetCollections targetIndexesOf c
            (sourceIndexesOf c) = some ⟨false, (sourceIndexesOf c).filter (fun sourceIndex =>
              !(isIdIndex sourceIndex) &&
              !((targetIndexesOf c).any (fun targetIndex =>
                  areIndexesEquivalent sourceIndex targetIndex)))⟩ := by
          unfold specPlanEntry
          rw [if_neg (not_not_intro hc)]
          simp only [hfuse]
          rw [if_neg (by simpa [List.isEmpty_iff] using hm)]
        rw [hspec]
        simp only [Option.map_some', Option.toList_some, List.singleton_append]
        simp only [comparePlan, if_neg (not_not_intro hc)]
        have hlen : ((sourceIndexesOf c).filter (fun sourceIndex =>
            !(isIdIndex sourceIndex) &&
            !((targetIndexesOf c).any (fun targetIndex =>
                areIndexesEquivalent sourceIndex targetIndex)))).length > 0 :=
          List.length_pos.mpr hm
        simp [hlen, ih]
    · have hspec : specPlanEntry targetCollections targetIndexesOf c
          (sourceIndexesOf c) = some ⟨true,
            (sourceIndexesOf c).filter (fun index => !(isIdIndex index))⟩ := by
        unfold specPlanEntry
        rw [if_pos hc]
      rw [hspec]
      simp only [Option.map_some', Option.toList_some, List.singleton_append]
      simp only [comparePlan, if_pos hc]
      simp [ih]

theorem areIndexesEquivalent_symm_aux (a b : Doc)
    (h : areIndexesEquivalent b a = true) : areIndexesEquivalent a b = true := by
  rw [areIndexesEquivalent_iff] at h ⊢
  obtain ⟨hk, hu, hs, he, hw, hp⟩ := h
  refine ⟨hk.symm, hu.symm, hs.symm, he.symm, ?_, hp.symm⟩
  intro ht
  rw [← hk] at ht
  exact (hw ht).symm

/-- C2: `areIndexesEquivalent` is reflexive and symmetric, and two
descriptors agreeing on every property other than `name` and `background`
are equivalent, so the identity it computes is independent of `name` and
`background`. -/
theorem areIndexesEquivalent_reflexive_symmetric_ignores_name_background :
    (∀ d : Doc, areIndexesEquivalent d d = true) ∧
    (∀ a b : Doc, areIndexesEquivalent a b = areIndexesEquivalent b a) ∧
    (∀ a b : Doc,
      (∀ k : String, k ≠ "name" → k ≠ "background" → getField a k = getField b k) →
      areIndexesEquivalent a b = true) := by
  refine ⟨?_, ?_, ?_⟩
  · intro d
    rw [areIndexesEquivalent_iff]
    exact ⟨rfl, rfl, rfl, rfl, fun _ => rfl, rfl⟩
  · intro a b
    cases hab : areIndexesEquivalent a b with
    | true => exact (areIndexesEquivalent_symm_aux b a hab).symm
    | false =>
      cases hba : areIndexesEquivalent b a with
      | true => rw [areIndexesEquivalent_symm_aux a b hba] at hab; simp at hab
      | false => rfl
  · intro a b h
    have hk := h "key" (by decide) (by decide)
    have hu := h "unique" (by decide) (by decide)
    have hs := h "sparse" (by decide) (by decide)
    have he := h "expireAfterSeconds" (by decide) (by decide)
    have hw := h "weights" (by decide) (by decide)
    have hp := h "partialFilterExpression" (by decide) (by decide)
    rw [areIndexesEquivalent_iff]
    exact ⟨hk, hu, hs, he, fun _ => by rw [hw], by rw [hp]⟩

/-- Witness for C2 at concrete inputs: two descriptors with the same key and
options but different `name` and `background` values are equivalent. -/
theorem areIndexesEquivalent_ignores_name_background_witness :
    areIndexesEquivalent
      [("key", JsonVal.obj [("a", JsonVal.num 1)]), ("name", JsonVal.str "a_1"),
       ("background", JsonVal.bool true)]
      [("key", JsonVal.obj [("a", JsonVal.num 1)]), ("name", JsonVal.str "other"),
       ("background", JsonVal.bool false)] = true := by
  refine areIndexesEquivalent_reflexive_symmetric_ignores_name_background.2.2 _ _ ?_
  intro k h1 h2
  by_cases hkey : k = "key"
  · subst hkey; rfl
  · rw [getField, getField,
      List.find?_cons_of_neg _ (by simpa using fun h => hkey h.symm),
      List.find?_cons_of_neg _ (by simpa using fun h => h1 h.symm),
      List.find?_cons_of_neg _ (by simpa using fun h => h2 h.symm),
      List.find?_cons_of_neg _ (by simpa using fun h => hkey h.symm),
      List.find?_cons_of_neg _ (by simpa using fun h => h1 h.symm),
      List.find?_cons_of_neg _ (by simpa using fun h => h2 h.symm)]

/-- C3 counterexample: two descriptors with equal key patterns, one with no
`unique` property and the other with `unique: false` and nothing else
different, are NOT treated as equivalent by the comparator — the strict
`!==` comparison distinguishes an absent (`undefined`) `unique` from
`false`. -/
theorem areIndexesEquivalent_unique_absent_vs_false_counterexample :
    areIndexesEquivalent
      [("key", JsonVal.obj [("a", JsonVal.num 1)])]
      [("key", JsonVal.obj [("a", JsonVal.num 1)]),
       ("unique", JsonVal.bool false)] = false := by decide

/-- C3 (amended): the comparator compares `unique`, `sparse` and
`expireAfterSeconds` with strict equality under which an absent value is
distinct from every present value — not only is TTL absence distinct from
TTL 0, but a missing `unique` is also distinct from `unique: false`.
Equivalence forces the three option properties to coincide exactly, and a
descriptor without `expireAfterSeconds` (resp. without `unique`) is never
equivalent to one carrying `expireAfterSeconds = 0` (resp.
`unique: false`). -/
theorem areIndexesEquivalent_options_strict :
    (∀ a b : Doc, areIndexesEquivalent a b = true →
      getField a "unique" = getField b "unique" ∧
      getField a "sparse" = getField b "sparse" ∧
      getField a "expireAfterSeconds" = getField b "expireAfterSeconds") ∧
    (∀ a b : Doc, getField a "expireAfterSeconds" = none →
      getField b "expireAfterSeconds" = some (JsonVal.num 0) →
      areIndexesEquivalent a b = false) ∧
    (∀ a b : Doc, getField a "unique" = none →
      getField b "unique" = some (JsonVal.bool false) →
      areIndexesEquivalent a b = false) := by
  refine ⟨?_, ?_, ?_⟩
  · intro a b h
    have := (areIndexesEquivalent_iff a b).mp h
    exact ⟨this.2.1, this.2.2.1, this.2.2.2.1⟩
  · intro a b ha hb
    cases h : areIndexesEquivalent a b with
    | false => rfl
    | true =>
      have := ((areIndexesEquivalent_iff a b).mp h).2.2.2.1
      rw [ha, hb] at this
      exact absurd this (by simp)
  · intro a b ha hb
    cases h : areIndexesEquivalent a b with
    | false => rfl
    | true =>
      have := ((areIndexesEquivalent_iff a b).mp h).2.1
      rw [ha, hb] at this
      exact absurd this (by simp)

/-- Witness for C3 (amended) at concrete inputs: TTL absence versus
`expireAfterSeconds = 0`, and `unique` absence versus `unique: false`, are
each rejected. -/
theorem areIndexesEquivalent_options_strict_witness :
    areIndexesEquivalent
      [("key", JsonVal.obj [("a", JsonVal.num 1)])]
      [("key", JsonVal.obj [("a", JsonVal.num 1)]),
       ("expireAfterSeconds", JsonVal.num 0)] = false ∧
    areIndexesEquivalent
      [("key", JsonVal.obj [("b", JsonVal.num 1)])]
      [("key", JsonVal.obj [("b", JsonVal.num 1)]),
       ("unique", JsonVal.bool false)] = false :=
  ⟨areIndexesEquivalent_options_strict.2.1 _ _ (by decide) (by decide),
   areIndexesEquivalent_options_strict.2.2 _ _ (by decide) (by decide)⟩

/-- C4 counterexample: two text-index descriptors whose `weights` maps hold
the same fields with the same values but listed in a different order (a
permutation, as the first conjunct records) are NOT treated as equal — the
code compares the `JSON.stringify` serializations, which depend on property
order. -/
theorem areIndexesEquivalent_weights_order_counterexample :
    List.Perm [("a", JsonVal.num 1), ("b", JsonVal.num 2)]
      [("b", JsonVal.num 2), ("a", JsonVal.num 1)] ∧
    areIndexesEquivalent
      [("key", JsonVal.obj [("t", JsonVal.str "text")]),
       ("weights", JsonVal.obj [("a", JsonVal.num 1), ("b", JsonVal.num 2)])]
      [("key", JsonVal.obj [("t", JsonVal.str "text")]),
       ("weights", JsonVal.obj [("b", JsonVal.num 2), ("a", JsonVal.num 1)])] = false := by
  constructor
  · decide
  · decide

/-- C4 (amended): equality of nested `weights` maps (compared only when the
key pattern contains a `"text"` field, an absent map normalized to the empty
object) and of `partialFilterExpression` predicates (absence normalized to
the empty object) is structural by value on the serialized form, not
reference-based — but property order within the nested documents is
significant: descriptors whose normalized nested documents agree field by
field in the same listed order are treated as equal, while the same fields
in a different order are not. -/
theorem areIndexesEquivalent_nested_structural :
    ∀ a b : Doc,
      getField a "key" = getField b "key" →
      getField a "unique" = getField b "unique" →
      getField a "sparse" = getField b "sparse" →
      getField a "expireAfterSeconds" = getField b "expireAfterSeconds" →
      (JsonVal.str "text" ∈ keyValues (getField a "key") →
        orEmptyObj (getField a "weights") = orEmptyObj (getField b "weights")) →
      orEmptyObj (getField a "partialFilterExpression") =
        orEmptyObj (getField b "partialFilterExpression") →
      areIndexesEquivalent a b = true := by
  intro a b hk hu hs he hw hp
  rw [areIndexesEquivalent_iff]
  exact ⟨hk, hu, hs, he, hw, hp⟩

/-- Witness for C4 (amended) at concrete inputs: a text index with no
`weights` and no `partialFilterExpression` is equivalent to one carrying the
explicit empty objects — distinct representations, equal by value. -/
theorem areIndexesEquivalent_nested_structural_witness :
    areIndexesEquivalent
      [("key", JsonVal.obj [("t", JsonVal.str "text")])]
      [("key", JsonVal.obj [("t", JsonVal.str "text")]),
       ("weights", JsonVal.obj []),
       ("partialFilterExpression", JsonVal.obj [])] = true :=
  areIndexesEquivalent_nested_structural _ _ (by decide) (by decide) (by decide)
    (by decide) (fun _ => by decide) (by decide)

/-- C5: the key-pattern comparison treats property order and direction/kind
values as significant: descriptors whose key patterns hold the same
field/direction pairs in a different order, or the same fields in the same
order with different direction/kind values, are never equivalent. -/
theorem areIndexesEquivalent_key_order_direction_significant :
    ∀ (a b : Doc) (ka kb : List (String × JsonVal)),
      getField a "key" = some (JsonVal.obj ka) →
      getField b "key" = some (JsonVal.obj kb) →
      ((List.Perm ka kb ∧ ka ≠ kb) ∨
       (ka.map Prod.fst = kb.map Prod.fst ∧ ka ≠ kb)) →
      areIndexesEquivalent a b = false := by
  intro a b ka kb ha hb hne
  have hk : ka ≠ kb := by rcases hne with ⟨_, h⟩ | ⟨_, h⟩ <;> exact h
  unfold areIndexesEquivalent
  rw [if_pos]
  rw [ha, hb]
  simp [hk]

/-- Witness for C5 at concrete inputs: `{a:1, b:1}` versus `{b:1, a:1}` (the
same pairs permuted) is rejected, as is `{a:1}` versus `{a:-1}` (same field,
different direction). -/
theorem areIndexesEquivalent_key_order_direction_witness :
    areIndexesEquivalent
      [("key", JsonVal.obj [("a", JsonVal.num 1), ("b", JsonVal.num 1)])]
      [("key", JsonVal.obj [("b", JsonVal.num 1), ("a", JsonVal.num 1)])] = false ∧
    areIndexesEquivalent
      [("key", JsonVal.obj [("a", JsonVal.num 1)])]
      [("key", JsonVal.obj [("a", JsonVal.num (-1))])] = false :=
  ⟨areIndexesEquivalent_key_order_direction_significant _ _ _ _ rfl rfl
      (Or.inl ⟨by decide, by decide⟩),
   areIndexesEquivalent_key_order_direction_significant _ _ _ _ rfl rfl
      (Or.inr ⟨by decide, by decide⟩)⟩

theorem not_idIndex_name (d : Doc) (h : isIdIndex d = false) :
    getField d "name" ≠ some (JsonVal.str "_id_") := by
  simpa [isIdIndex, decide_eq_false_iff_not] using h

/-- C6: a descriptor named `_id_` never appears in a reconciliation plan —
both the missing-collection branch and the present-collection branch filter
it out — and `createIndex` returns with the skip outcome, issuing no create
call, whenever the descriptor's name is `_id_`. -/
theorem idIndex_never_planned_never_created :
    (∀ (sourceCollections targetCollections : List String)
        (sourceIndexesOf targetIndexesOf : String → List Doc)
        (c : String) (entry : PlanEntry) (d : Doc),
        (c, entry) ∈ comparePlan sourceCollections targetCollections
          sourceIndexesOf targetIndexesOf →
        d ∈ entry.indexes →
        getField d "name" ≠ some (JsonVal.str "_id_")) ∧
    (∀ (indexSpec : Doc) (db : CreateCall → Except MongoError Unit),
        getField indexSpec "name" = some (JsonVal.str "_id_") →
        createIndex indexSpec db = IndexCreationOutcome.skippedIdIndex) := by
  constructor
  · intro sourceCollections targetCollections sourceIndexesOf targetIndexesOf c entry d
    induction sourceCollections with
    | nil => intro h; simp [comparePlan] at h
    | cons c0 rest ih =>
      intro hmem hd
      by_cases hc : c0 ∈ targetCollections
      · simp only [comparePlan, if_neg (not_not_intro hc)] at hmem
        by_cases hlen : ((sourceIndexesOf c0).filter (fun sourceIndex =>
            !(isIdIndex sourceIndex) &&
            !((targetIndexesOf c0).any (fun targetIndex =>
                areIndexesEquivalent sourceIndex targetIndex)))).length > 0
        · rw [if_pos hlen] at hmem
          rcases List.mem_cons.mp hmem with heq | htail
          · have hent : entry = ⟨false, (sourceIndexesOf c0).filter (fun sourceIndex =>
                !(isIdIndex sourceIndex) &&
                !((targetIndexesOf c0).any (fun targetIndex =>
                    areIndexesEquivalent sourceIndex targetIndex)))⟩ :=
              congrArg Prod.snd heq
            rw [hent] at hd
            have := (List.mem_filter.mp hd).2
            exact not_idIndex_name d (Bool.not_eq_true' .. |>.mp (Bool.and_eq_true .. |>.mp this).1)
          · exact ih htail hd
        · rw [if_neg hlen] at hmem
          exact ih hmem hd
      · simp only [comparePlan, if_pos hc] at hmem
        rcases List.mem_cons.mp hmem with heq | htail
        · have hent : entry = ⟨true,
              (sourceIndexesOf c0).filter (fun index => !(isIdIndex index))⟩ :=
            congrArg Prod.snd heq
          rw [hent] at hd
          have := (List.mem_filter.mp hd).2
          exact not_idIndex_name d (Bool.not_eq_true' .. |>.mp this)
        · exact ih htail hd
  · intro indexSpec db h
    simp [createIndex, h]

/-- Witness for C6 at concrete inputs: the plan computed for a source
collection holding the `_id_` index and an `email_1` index, with the
collection absent on the target, contains only the `email_1` descriptor,
whose name is not `_id_`; and creating the `_id_` descriptor is skipped. -/
theorem idIndex_never_planned_never_created_witness :
    getField [("name", JsonVal.str "email_1"),
      ("key", JsonVal.obj [("email", JsonVal.num 1)])] "name" ≠
        some (JsonVal.str "_id_") ∧
    createIndex [("name", JsonVal.str "_id_"),
      ("key", JsonVal.obj [("_id", JsonVal.num 1)])] (fun _ => Except.ok ()) =
        IndexCreationOutcome.skippedIdIndex :=
  ⟨idIndex_never_planned_never_created.1 ["users"] []
      (fun _ => [[("name", JsonVal.str "_id_"),
                  ("key", JsonVal.obj [("_id", JsonVal.num 1)])],
                 [("name", JsonVal.str "email_1"),
                  ("key", JsonVal.obj [("email", JsonVal.num 1)])]])
      (fun _ => []) "users"
      ⟨true, [[("name", JsonVal.str "email_1"),
               ("key", JsonVal.obj [("email", JsonVal.num 1)])]]⟩
      [("name", JsonVal.str "email_1"),
       ("key", JsonVal.obj [("email", JsonVal.num 1)])]
      (by decide) (by decide),
   idIndex_never_planned_never_created.2 _ _ rfl⟩

/-- C7: the per-index create operation never lets an error escape.  When the
driver rejects the issued call with error code 85 or a message containing
the substring `already exists`, the outcome is normalized to
`alreadyExists`; any other error becomes the recorded `failed` outcome.
Either way `createIndex` returns an outcome value rather than raising, so
the per-collection loop maps every remaining descriptor to an outcome — one
outcome per index read, whatever the earlier errors were. -/
theorem createIndex_error_isolation :
    (∀ (indexSpec : Doc) (db : CreateCall → Except MongoError Unit) (e : MongoError),
        getField indexSpec "name" ≠ some (JsonVal.str "_id_") →
        db ⟨getField indexSpec "key", buildIndexOptions indexSpec⟩ = Except.error e →
        ((e.code = some 85 ∨ containsSubstring e.message "already exists" = true →
            createIndex indexSpec db = IndexCreationOutcome.alreadyExists
              ⟨getField indexSpec "key", buildIndexOptions indexSpec⟩) ∧
         (e.code ≠ some 85 → containsSubstring e.message "already exists" = false →
            createIndex indexSpec db = IndexCreationOutcome.failed
              ⟨getField indexSpec "key", buildIndexOptions indexSpec⟩ e))) ∧
    (∀ (readResult : Except MongoError (List Doc))
        (db : CreateCall → Except MongoError Unit),
        (migrateCollectionIndexes readResult db).length =
          (getIndexes readResult).length) := by
  constructor
  · intro indexSpec db e hname hdb
    constructor
    · intro hdup
      have hd : isDuplicateIndexError e = true := by
        rcases hdup with h | h <;> simp [isDuplicateIndexError, h]
      simp [createIndex, if_neg hname, hdb, hd]
    · intro hcode hmsg
      have hd : isDuplicateIndexError e = false := by
        simp [isDuplicateIndexError, hcode, hmsg]
      simp [createIndex, if_neg hname, hdb, hd]
  · intro readResult db
    simp [migrateCollectionIndexes]

/-- Witness for C7 at concrete inputs: a duplicate-index rejection (code 85)
is normalized to `alreadyExists`, an unrelated rejection is recorded as
`failed`, and a two-descriptor collection still yields two outcomes. -/
theorem createIndex_error_isolation_witness :
    createIndex [("name", JsonVal.str "a_1"), ("key", JsonVal.obj [("a", JsonVal.num 1)])]
        (fun _ => Except.error ⟨some 85, "boom"⟩) =
      IndexCreationOutcome.alreadyExists
        ⟨getField [("name", JsonVal.str "a_1"), ("key", JsonVal.obj [("a", JsonVal.num 1)])] "key",
         buildIndexOptions [("name", JsonVal.str "a_1"), ("key", JsonVal.obj [("a", JsonVal.num 1)])]⟩ ∧
    createIndex [("name", JsonVal.str "a_1"), ("key", JsonVal.obj [("a", JsonVal.num 1)])]
        (fun _ => Except.error ⟨some 11000, "server unavailable"⟩) =
      IndexCreationOutcome.failed
        ⟨getField [("name", JsonVal.str "a_1"), ("key", JsonVal.obj [("a", JsonVal.num 1)])] "key",
         buildIndexOptions [("name", JsonVal.str "a_1"), ("key", JsonVal.obj [("a", JsonVal.num 1)])]⟩
        ⟨some 11000, "server unavailable"⟩ :=
  ⟨(createIndex_error_isolation.1 _ _ _ (by decide) rfl).1 (Or.inl rfl),
   (createIndex_error_isolation.1 _ _ _ (by decide) rfl).2 (by decide) (by decide)⟩

theorem buildIndexOptions_eq_filter (indexSpec : Doc) :
    buildIndexOptions indexSpec = indexSpec.filter (fun p =>
      !(p.1 = "key" : Bool) && !(p.1 = "v" : Bool) && !(p.1 = "ns" : Bool)) := by
  rw [buildIndexOptions, deleteField, deleteField, deleteField,
    List.filter_filter, List.filter_filter]
  refine List.filter_congr (fun p _ => ?_)
  cases h1 : (decide (p.1 = "key")) <;> cases h2 : (decide (p.1 = "v")) <;>
    cases h3 : (decide (p.1 = "ns")) <;> rfl

/-- C8: for every non-`_id_` descriptor, the create call issued to the
driver passes the descriptor's `key` value as the separate keys argument,
and an options bag holding every property of the descriptor verbatim (same
values, same order) except exactly `key`, `v` and `ns`; membership in the
options bag is exactly membership in the descriptor minus those three
property names. -/
theorem createIndex_options_forwarding :
    ∀ (indexSpec : Doc) (db : CreateCall → Except MongoError Unit),
      getField indexSpec "name" ≠ some (JsonVal.str "_id_") →
      outcomeCall (createIndex indexSpec db) =
        some ⟨getField indexSpec "key",
          indexSpec.filter (fun p =>
            !(p.1 = "key" : Bool) && !(p.1 = "v" : Bool) && !(p.1 = "ns" : Bool))⟩ ∧
      (∀ (k : String) (x : JsonVal),
        (k, x) ∈ buildIndexOptions indexSpec ↔
          ((k, x) ∈ indexSpec ∧ k ≠ "key" ∧ k ≠ "v" ∧ k ≠ "ns")) := by
  intro indexSpec db hname
  constructor
  · rw [← buildIndexOptions_eq_filter]
    simp only [createIndex, if_neg hname]
    cases hdb : db ⟨getField indexSpec "key", buildIndexOptions indexSpec⟩ with
    | ok u => simp [outcomeCall]
    | error e =>
      by_cases hd : isDuplicateIndexError e = true <;> simp [outcomeCall, hd]
  · intro k x
    rw [buildIndexOptions_eq_filter, List.mem_filter]
    simp [and_assoc]

/-- Witness for C8 at a concrete descriptor carrying `key`, `v`, `ns`,
`name` and `unique`: the issued call separates the key pattern and forwards
only `name` and `unique` in the options bag. -/
theorem createIndex_options_forwarding_witness :
    outcomeCall (createIndex
        [("v", JsonVal.num 2), ("key", JsonVal.obj [("a", JsonVal.num 1)]),
         ("name", JsonVal.str "a_1"), ("ns", JsonVal.str "db.users"),
         ("unique", JsonVal.bool true)] (fun _ => Except.ok ())) =
      some ⟨some (JsonVal.obj [("a", JsonVal.num 1)]),
        [("name", JsonVal.str "a_1"), ("unique", JsonVal.bool true)]⟩ :=
  (createIndex_options_forwarding _ (fun _ => Except.ok ()) (by decide)).1

/-- C9: when reading a collection's indexes fails, the inventory reader
returns the empty sequence instead of raising, and the migrate loop still
produces a (possibly empty) outcome list for that collection while every
other collection in scope keeps its own entry — migration proceeds. -/
theorem getIndexes_failure_returns_empty :
    ∀ (collections : List String)
      (reads : String → Except MongoError (List Doc))
      (db : CreateCall → Except MongoError Unit) (c : String) (e : MongoError),
      reads c = Except.error e → c ∈ collections →
      getIndexes (reads c) = [] ∧
      (c, []) ∈ migrateAllCollections collections reads db ∧
      (migrateAllCollections collections reads db).map Prod.fst = collections := by
  intro collections reads db c e hread hmem
  refine ⟨by rw [hread]; rfl, ?_, ?_⟩
  · have : migrateCollectionIndexes (reads c) db = [] := by
      rw [migrateCollectionIndexes, hread]; rfl
    exact List.mem_map.mpr ⟨c, hmem, by rw [this]⟩
  · simp [migrateAllCollections, List.map_map, Function.comp_def]

/-- Witness for C9 at concrete inputs: with `users` failing to read and
`orders` reading two descriptors, `users` contributes an empty outcome list
and both collections appear in the migrate result. -/
theorem getIndexes_failure_returns_empty_witness :
    getIndexes (Except.error ⟨none, "collection vanished"⟩ :
        Except MongoError (List Doc)) = [] ∧
    ("users", []) ∈ migrateAllCollections ["users", "orders"]
      (fun c => if c = "users" then Except.error ⟨none, "collection vanished"⟩
        else Except.ok [[("name", JsonVal.str "a_1"),
          ("key", JsonVal.obj [("a", JsonVal.num 1)])]])
      (fun _ => Except.ok ()) ∧
    (migrateAllCollections ["users", "orders"]
      (fun c => if c = "users" then Except.error ⟨none, "collection vanished"⟩
        else Except.ok [[("name", JsonVal.str "a_1"),
          ("key", JsonVal.obj [("a", JsonVal.num 1)])]])
      (fun _ => Except.ok ())).map Prod.fst = ["users", "orders"] :=
  getIndexes_failure_returns_empty ["users", "orders"]
    (fun c => if c = "users" then Except.error ⟨none, "collection vanished"⟩
      else Except.ok [[("name", JsonVal.str "a_1"),
        ("key", JsonVal.obj [("a", JsonVal.num 1)])]])
    (fun _ => Except.ok ()) "users" ⟨none, "collection vanished"⟩ rfl
    (by decide)

/-- C10: the options construction in `createIndex` does not mutate the
descriptor it is given: `const options = { ...indexSpec }` allocates a fresh
object and the three `delete`s act on that copy, so after the construction
the heap still holds the original descriptor unchanged at its reference,
while the fresh options object holds exactly the descriptor minus `key`,
`v` and `ns`. -/
theorem createIndexOptionsAlloc_preserves_descriptor :
    ∀ (h : ObjHeap) (specRef : Nat), specRef < h.length →
      ((createIndexOptionsAlloc h specRef).1)[specRef]? = some (h.getD specRef []) ∧
      ((createIndexOptionsAlloc h specRef).1)[(createIndexOptionsAlloc h specRef).2]? =
        some (buildIndexOptions (h.getD specRef [])) := by
  intro h specRef hlt
  have hne : specRef ≠ h.length := Nat.ne_of_lt hlt
  have happ : (h ++ [h.getD specRef []])[specRef]? = some (h.getD specRef []) := by
    simp [List.getElem?_append, hlt, List.getD_eq_getElem?_getD,
      List.getElem?_eq_getElem hlt]
  have hlen1 : h.length < (h ++ [h.getD specRef []]).length := by
    simp
  constructor
  · simp only [createIndexOptionsAlloc, heapDelete]
    rw [List.getElem?_set_ne (fun heq => hne heq.symm),
      List.getElem?_set_ne (fun heq => hne heq.symm),
      List.getElem?_set_ne (fun heq => hne heq.symm), happ]
  · simp only [createIndexOptionsAlloc, heapDelete, buildIndexOptions]
    have hget1 : (h ++ [h.getD specRef []]).getD h.length [] = h.getD specRef [] := by
      rw [List.getD_eq_getElem?_getD]
      simp
    rw [hget1]
    have hset1 : ((h ++ [h.getD specRef []]).set h.length
        (deleteField "key" (h.getD specRef []))).getD h.length [] =
          deleteField "key" (h.getD specRef []) := by
      rw [List.getD_eq_getElem?_getD, List.getElem?_set_self (by simp)]
      rfl
    rw [hset1]
    have hset2 : (((h ++ [h.getD specRef []]).set h.length
        (deleteField "key" (h.getD specRef []))).set h.length
          (deleteField "v" (deleteField "key" (h.getD specRef [])))).getD h.length [] =
        deleteField "v" (deleteField "key" (h.getD specRef [])) := by
      rw [List.getD_eq_getElem?_getD, List.getElem?_set_self (by simp)]
      rfl
    rw [hset2]
    rw [List.getElem?_set_self (by simp)]

/-- Witness for C10 at a concrete one-object heap: the descriptor read back
after the options construction is the original, with its `key`, `v` and
`ns` properties intact. -/
theorem createIndexOptionsAlloc_preserves_descriptor_witness :
    ((createIndexOptionsAlloc
        [[("v", JsonVal.num 2), ("key", JsonVal.obj [("a", JsonVal.num 1)]),
          ("ns", JsonVal.str "db.users"), ("name", JsonVal.str "a_1")]] 0).1)[0]? =
      some [("v", JsonVal.num 2), ("key", JsonVal.obj [("a", JsonVal.num 1)]),
        ("ns", JsonVal.str "db.users"), ("name", JsonVal.str "a_1")] :=
  (createIndexOptionsAlloc_preserves_descriptor _ 0 (by decide)).1
